import Mathlib

/-!
Verification of the cachingproxy library (src/cachingproxy.py) against its
specification.  The development shallowly embeds the Python module: Python
values are an inductive type, the per-proxy key/value store is a pair of
parallel lists, the four-mode resolution engine `CachingProxy.__cache_resolve`
is a pure function over an explicit subject-state, and the serialization layer
(`to_cache` / `from_cache`) is modelled at the level of parsed JSON documents
(a document is represented by the Python value that `json.loads` returns for
it, so `json.loads(json.dumps(v))` becomes one total function on values).

Modelled fragment of Python data: None, bool, int, str, list, tuple,
string-keyed dict, exception objects, opaque live objects (identified by a
numeric identity), the `GhostObject` marker, `CachingProxy` instances and the
(never-constructed) `CachedException` wrapper.  Floats are outside the
fragment (no claim mentions them).  Python `==` on this fragment is structural
equality after identifying `True`/`False` with `1`/`0`; dict equality is
modelled as ordered field-list equality (all documents produced by the module
have a fixed field order), and exception / proxy equality is modelled
structurally (the claims never compare two distinct exceptions or proxies
for equality).
-/

mutual
/-- Python values of the modelled fragment.  `proxy subject keys values` is a
`CachingProxy` instance together with its two parallel store lists
(`_CachingProxy__obj`, `_CachingProxy__keys`, `_CachingProxy__values`);
`cachedExc` is the `CachedException` container class; `ghost` is the
`GhostObject` marker; `obj n` is an arbitrary opaque live object with
identity `n`. -/
inductive PyVal : Type where
  | none : PyVal
  | pybool (b : Bool) : PyVal
  | pyint (n : Int) : PyVal
  | pystr (s : String) : PyVal
  | pylist (xs : PyArgs) : PyVal
  | pytuple (xs : PyArgs) : PyVal
  | pydict (fs : PyFields) : PyVal
  | exc (name : String) (arg : PyVal) : PyVal
  | obj (id : Nat) : PyVal
  | ghost : PyVal
  | proxy (subject : PyVal) (keys : PyArgs) (values : PyArgs) : PyVal
  | cachedExc (e : PyVal) : PyVal
/-- A sequence of Python values (the children of a list or tuple, or the
store lists carried inside a `proxy` value). -/
inductive PyArgs : Type where
  | nil : PyArgs
  | cons (hd : PyVal) (tl : PyArgs) : PyArgs
/-- The fields of a string-keyed Python dict, in insertion order. -/
inductive PyFields : Type where
  | fnil : PyFields
  | fcons (k : String) (v : PyVal) (tl : PyFields) : PyFields
end

deriving instance DecidableEq for PyVal, PyArgs, PyFields

/-- View a `PyArgs` sequence as a Lean list. -/
def PyArgs.toList : PyArgs → List PyVal
  | .nil => []
  | .cons h t => h :: t.toList

/-- Build a `PyArgs` sequence from a Lean list. -/
def PyArgs.ofList : List PyVal → PyArgs
  | [] => .nil
  | x :: xs => .cons x (PyArgs.ofList xs)

mutual
/-- Canonical form underlying Python `==` on the fragment: `True` and `False`
are identified with the integers `1` and `0` (Python booleans are integers),
recursively inside containers.  Two fragment values compare `==` in Python
exactly when their canonical forms coincide; in particular a tuple and a
list are never equal, which is the equality fact the store lookups of the
source depend on. -/
def pyCanon : PyVal → PyVal
  | .none => .none
  | .pybool b => .pyint (if b then 1 else 0)
  | .pyint n => .pyint n
  | .pystr s => .pystr s
  | .pylist xs => .pylist (pyCanonArgs xs)
  | .pytuple xs => .pytuple (pyCanonArgs xs)
  | .pydict fs => .pydict (pyCanonFields fs)
  | .exc n a => .exc n (pyCanon a)
  | .obj i => .obj i
  | .ghost => .ghost
  | .proxy s ks vs => .proxy (pyCanon s) (pyCanonArgs ks) (pyCanonArgs vs)
  | .cachedExc e => .cachedExc (pyCanon e)
/-- `pyCanon` mapped over a value sequence. -/
def pyCanonArgs : PyArgs → PyArgs
  | .nil => .nil
  | .cons h t => .cons (pyCanon h) (pyCanonArgs t)
/-- `pyCanon` mapped over dict fields. -/
def pyCanonFields : PyFields → PyFields
  | .fnil => .fnil
  | .fcons k v t => .fcons k (pyCanon v) (pyCanonFields t)
end

/-- Python `==` on the modelled fragment. -/
def pyEq (a b : PyVal) : Bool := decide (pyCanon a = pyCanon b)

/-- The primitive test of `CachingProxy.__new__` (line 224 of the source):
bool, float, int, str, unicode and None pass through unwrapped.  Floats are
outside the modelled fragment; unicode and str coincide here. -/
def isPrimitive : PyVal → Bool
  | .none => true
  | .pybool _ => true
  | .pyint _ => true
  | .pystr _ => true
  | _ => false

/-- Whether a value is a `CachingProxy` instance. -/
def isProxyVal : PyVal → Bool
  | .proxy _ _ _ => true
  | _ => false

/-- The key/value store owned by one proxy: the two parallel lists
`_CachingProxy__keys` and `_CachingProxy__values`. -/
structure Store : Type where
  keys : List PyVal
  values : List PyVal
deriving DecidableEq

/-- The store of a freshly constructed proxy (`__init__`, lines 229-232). -/
def emptyStore : Store := ⟨[], []⟩

/-- `keys.index(x)`: index of the first element of the list comparing
Python-equal to `x`, if any (CPython compares `element == target`). -/
def listIndex (x : PyVal) : List PyVal → Option Nat
  | [] => Option.none
  | k :: ks => if pyEq k x then some 0 else (listIndex x ks).map (fun i => i + 1)

/-- The four global cache modes (`CACHE_NONE, CACHE_KEEP, CACHE_USE,
CACHE_PURE = range(4)`), i.e. disabled / record-only / record-and-reuse /
replay-only. -/
inductive CacheMode : Type where
  | CACHE_NONE : CacheMode
  | CACHE_KEEP : CacheMode
  | CACHE_USE : CacheMode
  | CACHE_PURE : CacheMode
deriving DecidableEq

/-- Result of one resolution: a normal Python return, a Python raise of a
value, or the `NotCachedError(obj, attr)` raised by the engine itself (kept
as a separate constructor so that its two payload fields, the subject and
the computed key, are visible). -/
inductive RResult : Type where
  | ret (v : PyVal) : RResult
  | raised (v : PyVal) : RResult
  | notCached (subject key : PyVal) : RResult
deriving DecidableEq

/-- Outcome record of one call to the resolution engine over a subject whose
mutable state has type `σ`: the result delivered to the caller, the store
lists after the call, the subject state after the call, how many times the
invoker (the real operation on the subject) ran, and whether the key thunk
was forced / the store touched on this path. -/
structure ROut (σ : Type) : Type where
  result : RResult
  store : Store
  state : σ
  invocations : Nat
  keyComputed : Bool
  storeAccessed : Bool

/-- Propagate the raw outcome of a direct invocation: a returned value is
returned, a raised exception keeps propagating. -/
def rawResult : Except PyVal PyVal → RResult
  | .ok v => .ret v
  | .error e => .raised e

namespace CachingProxy

/-- `CachingProxy(value)` (`__new__` + `__init__`, lines 222-232): primitive
non-container immutable values pass through unwrapped, anything else is
wrapped in a fresh proxy with an empty store. -/
def new (v : PyVal) : PyVal :=
  if isPrimitive v then v else .proxy v .nil .nil

/-- The `call_impl` helper of `__cache_resolve` (lines 147-155) applied to the
outcome of `impl_func(obj)`: on success the raw result is wrapped via
`CachingProxy(value)`; on failure the code logs and returns the exception
object itself.  Note the source returns `exc` bare: the `CachedException`
container is never constructed anywhere in the module. -/
def call_impl : Except PyVal PyVal → PyVal
  | .ok v => new v
  | .error e => e

/-- The `return_wrapped` helper (lines 175-179): a stored `CachedException`
is re-raised wrapped as a proxy over the exception; every other stored value
is returned as is. -/
def return_wrapped : PyVal → RResult
  | .cachedExc e => .raised (new e)
  | w => .ret w

/-- The `store` helper (lines 157-165): overwrite at the index of an existing
Python-equal key, or append to both parallel lists. -/
def store (st : Store) (cache_key wrapped_value : PyVal) : Store :=
  match listIndex cache_key st.keys with
  | some index => ⟨st.keys.set index cache_key, st.values.set index wrapped_value⟩
  | Option.none => ⟨st.keys ++ [cache_key], st.values ++ [wrapped_value]⟩

/-- The `lookup` helper (lines 167-173): find the index of a Python-equal key
and return the parallel value.  On the stores the engine itself builds the
two lists are index-aligned, so the value access never goes out of range. -/
def lookup (st : Store) (cache_key : PyVal) : Option PyVal :=
  match listIndex cache_key st.keys with
  | some index => st.values[index]?
  | Option.none => Option.none

/-- The resolution engine `__cache_resolve` (lines 139-217).  The operation
is given by its already-computed cache key (the source computes it lazily
via `call_key`; the `keyComputed` flag records on which paths the thunk is
forced) and by `invoker`, the real operation on the subject, which consumes
the subject state `s` and either returns a value or raises.  Dispatch on the
process-wide cache mode:

* `CACHE_NONE` (disabled): call the invoker directly and hand its outcome
  through with no wrapping, no key computation and no store access;
* `CACHE_KEEP` (record-only): always invoke, wrap via `call_impl`,
  store-or-overwrite under the key, then unwrap via `return_wrapped`;
* `CACHE_USE` (record-and-reuse): look the key up first; on a hit unwrap the
  stored value without invoking; on a miss behave as record-only;
* `CACHE_PURE` (replay-only): look the key up; on a hit unwrap the stored
  value; on a miss raise `NotCachedError(obj, cache_key)` and never invoke. -/
def cache_resolve {σ : Type} (mode : CacheMode) (subject : PyVal) (st : Store)
    (cache_key : PyVal) (invoker : σ → Except PyVal PyVal × σ) (s : σ) : ROut σ :=
  match mode with
  | .CACHE_NONE =>
      let r := invoker s
      { result := rawResult r.1, store := st, state := r.2, invocations := 1,
        keyComputed := false, storeAccessed := false }
  | .CACHE_KEEP =>
      let r := invoker s
      let w := call_impl r.1
      { result := return_wrapped w, store := store st cache_key w, state := r.2,
        invocations := 1, keyComputed := true, storeAccessed := true }
  | .CACHE_USE =>
      match lookup st cache_key with
      | some w =>
          { result := return_wrapped w, store := st, state := s, invocations := 0,
            keyComputed := true, storeAccessed := true }
      | Option.none =>
          let r := invoker s
          let w := call_impl r.1
          { result := return_wrapped w, store := store st cache_key w, state := r.2,
            invocations := 1, keyComputed := true, storeAccessed := true }
  | .CACHE_PURE =>
      match lookup st cache_key with
      | some w =>
          { result := return_wrapped w, store := st, state := s, invocations := 0,
            keyComputed := true, storeAccessed := true }
      | Option.none =>
          { result := .notCached subject cache_key, store := st, state := s,
            invocations := 0, keyComputed := true, storeAccessed := true }

/-- The `specialmethod_nocache` decorator path used by `__setitem__` and
`__delitem__` (lines 52-56 and 299-305): `getattr(self.__obj, name)(*args)`
is called directly on the subject.  The body never consults the global cache
mode, never builds a key and never touches the store; the `mode` parameter
records the ambient mode only to let the theorems quantify over it. -/
def specialmethod_nocache {σ : Type} (_mode : CacheMode) (st : Store)
    (invoker : σ → Except PyVal PyVal × σ) (s : σ) : RResult × Store × σ :=
  let r := invoker s
  (rawResult r.1, st, r.2)

/-- `REPR_REAL, REPR_FAKE = range(2)` (line 61). -/
def REPR_REAL : PyVal := .pyint 0

/-- `REPR_FAKE` is the integer `1`. -/
def REPR_FAKE : PyVal := .pyint 1

/-- The class attribute default `repr_mode = REPR_REAL` (line 63). -/
def repr_mode_default : PyVal := REPR_REAL

/-- `set_repr_mode` (lines 65-78): the value assigned to the class attribute
`repr_mode` as a function of the argument.  The body of the source is
`cls.repr_mode = True`: the `mode` argument is ignored and the Python
boolean `True` is stored. -/
def set_repr_mode (_mode : PyVal) : PyVal := .pybool true

mutual
/-- `json.loads(json.dumps(v))` with `default=CachingProxy._to_json_obj`
(lines 332-338 and 360-362), i.e. the serialization `to_cache` with the
produced text document represented by the value it parses back to.  `some d`
means `json.dumps` succeeds and the document parses to `d`; `Option.none`
means `json.dumps` raises.  Tuples are emitted as JSON arrays and therefore
come back as lists; a proxy is emitted as the dict
`{"CachingProxy": True, "keys": [...], "values": [...]}` (its subject is
dropped); exceptions, `CachedException` wrappers, live objects and the ghost
marker are not JSON-serializable and `_to_json_obj` fails on them with an
attribute error, so the dump raises. -/
def to_cache : PyVal → Option PyVal
  | .none => some .none
  | .pybool b => some (.pybool b)
  | .pyint n => some (.pyint n)
  | .pystr s => some (.pystr s)
  | .pylist xs => (to_cacheArgs xs).map PyVal.pylist
  | .pytuple xs => (to_cacheArgs xs).map PyVal.pylist
  | .pydict fs => (to_cacheFields fs).map PyVal.pydict
  | .proxy _ ks vs =>
      match to_cacheArgs ks, to_cacheArgs vs with
      | some ks2, some vs2 =>
          some (.pydict (.fcons "CachingProxy" (.pybool true)
            (.fcons "keys" (.pylist ks2)
              (.fcons "values" (.pylist vs2) .fnil))))
      | _, _ => Option.none
  | .exc _ _ => Option.none
  | .obj _ => Option.none
  | .ghost => Option.none
  | .cachedExc _ => Option.none
/-- `to_cache` over a value sequence; fails if any element fails. -/
def to_cacheArgs : PyArgs → Option PyArgs
  | .nil => some .nil
  | .cons h t =>
      match to_cache h, to_cacheArgs t with
      | some h2, some t2 => some (.cons h2 t2)
      | _, _ => Option.none
/-- `to_cache` over dict fields; fails if any field value fails. -/
def to_cacheFields : PyFields → Option PyFields
  | .fnil => some .fnil
  | .fcons k v t =>
      match to_cache v, to_cacheFields t with
      | some v2, some t2 => some (.fcons k v2 t2)
      | _, _ => Option.none
end

mutual
/-- Whether `json.dumps` with the `_to_json_obj` default accepts a value:
JSON primitives, lists, tuples and string-keyed dicts of such, and proxies
whose two store lists consist of such values (the subject is not dumped). -/
def jsonable : PyVal → Bool
  | .none => true
  | .pybool _ => true
  | .pyint _ => true
  | .pystr _ => true
  | .pylist xs => jsonableArgs xs
  | .pytuple xs => jsonableArgs xs
  | .pydict fs => jsonableFields fs
  | .proxy _ ks vs => jsonableArgs ks && jsonableArgs vs
  | .exc _ _ => false
  | .obj _ => false
  | .ghost => false
  | .cachedExc _ => false
/-- `jsonable` over a value sequence. -/
def jsonableArgs : PyArgs → Bool
  | .nil => true
  | .cons h t => jsonable h && jsonableArgs t
/-- `jsonable` over dict fields. -/
def jsonableFields : PyFields → Bool
  | .fnil => true
  | .fcons _ v t => jsonable v && jsonableFields t
end

/-- First field of a dict with the given name (`json_obj[name]` and
`name in json_obj`; the documents handled here never repeat a field). -/
def dictGet (fs : PyFields) (name : String) : Option PyVal :=
  match fs with
  | .fnil => Option.none
  | .fcons k v t => if k = name then some v else dictGet t name

/-- The test `isinstance(value, dict) and "CachingProxy" in value`
(line 354). -/
def isProxyDict : PyVal → Bool
  | .pydict fs => (dictGet fs "CachingProxy").isSome
  | _ => false

/-- The key transformation of `_from_json_obj` (lines 346-350):
`tuple(key) if isinstance(key, list) else key`.  Only the top level of the
key is converted; list components nested inside the produced tuple are left
as lists. -/
def normKey : PyVal → PyVal
  | .pylist xs => .pytuple xs
  | k => k

/-- `normKey` applied to each loaded key (the list comprehension over
`json_obj["keys"]`). -/
def mapNormKeys : PyArgs → PyArgs
  | .nil => .nil
  | .cons k t => .cons (normKey k) (mapNormKeys t)

mutual
/-- `_from_json_obj` (lines 340-358) on a loaded document, with a recursion
fuel (first argument).  The document must be a dict; its "keys" and "values"
entries are read; keys are transformed by `normKey`; values carrying the
"CachingProxy" marker are reconstructed recursively, all other values are
kept as loaded; the result is a proxy over the ghost marker.  Every
recursive call consumes one unit of fuel, so `pySize` of the document (which
bounds the length of any such call chain) is always sufficient fuel. -/
def _from_json_objF : Nat → PyVal → Option PyVal
  | 0, _ => Option.none
  | Nat.succ fuel, doc =>
      match doc with
      | .pydict fs =>
          match dictGet fs "keys", dictGet fs "values" with
          | some (.pylist ks), some (.pylist vs) =>
              (_from_valuesF fuel vs).map
                (fun vs2 => PyVal.proxy .ghost (mapNormKeys ks) vs2)
          | _, _ => Option.none
      | _ => Option.none
/-- The value transformation of `_from_json_obj` over the loaded "values"
list. -/
def _from_valuesF : Nat → PyArgs → Option PyArgs
  | 0, _ => Option.none
  | Nat.succ _, .nil => some .nil
  | Nat.succ fuel, .cons v t =>
      match (if isProxyDict v then _from_json_objF fuel v else some v),
            _from_valuesF fuel t with
      | some v2, some t2 => some (.cons v2 t2)
      | _, _ => Option.none
end

mutual
/-- Node count of a value; bounds the recursion depth needed by
`_from_json_objF`. -/
def pySize : PyVal → Nat
  | .pylist xs => 1 + pySizeArgs xs
  | .pytuple xs => 1 + pySizeArgs xs
  | .pydict fs => 1 + pySizeFields fs
  | .proxy s ks vs => 1 + pySize s + pySizeArgs ks + pySizeArgs vs
  | .exc _ a => 1 + pySize a
  | .cachedExc e => 1 + pySize e
  | _ => 1
/-- Node count of a value sequence. -/
def pySizeArgs : PyArgs → Nat
  | .nil => 1
  | .cons h t => 1 + pySize h + pySizeArgs t
/-- Node count of dict fields. -/
def pySizeFields : PyFields → Nat
  | .fnil => 1
  | .fcons _ v t => 1 + pySize v + pySizeFields t
end

/-- `from_cache` (lines 364-367): parse the document and reconstruct via
`_from_json_obj`. -/
def from_cache (doc : PyVal) : Option PyVal :=
  _from_json_objF (pySize doc) doc

end CachingProxy

/-- The store lists carried by a proxy value (empty for non-proxies). -/
def storeOf : PyVal → Store
  | .proxy _ ks vs => ⟨ks.toList, vs.toList⟩
  | _ => emptyStore

/-- The wrapped subject of a proxy value (the value itself otherwise). -/
def subjectOf : PyVal → PyVal
  | .proxy s _ _ => s
  | v => v

/-- Resolution of an operation against a proxy value: the engine run on the
store and subject of that proxy. -/
def proxyResolve {σ : Type} (mode : CacheMode) (p : PyVal) (cache_key : PyVal)
    (invoker : σ → Except PyVal PyVal × σ) (s : σ) : ROut σ :=
  CachingProxy.cache_resolve mode (subjectOf p) (storeOf p) cache_key invoker s

/-- A store mutation or query, as issued by the engine: `put` is the `store`
helper, `get` is the read-only `lookup` helper. -/
inductive StoreOp : Type where
  | put (k v : PyVal) : StoreOp
  | get (k : PyVal) : StoreOp

/-- Effect of one store operation on the store (a lookup leaves it
unchanged). -/
def applyOp (st : Store) : StoreOp → Store
  | .put k v => CachingProxy.store st k v
  | .get _ => st

/-- Effect of a sequence of store operations. -/
def applyOps (st : Store) (ops : List StoreOp) : Store :=
  ops.foldl applyOp st

/-- An invoker that must not run: it raises; used to exercise replay-only
paths. -/
def deadInvoker : Unit → Except PyVal PyVal × Unit :=
  fun s => (Except.error (PyVal.exc "AssertionError" PyVal.none), s)

/-- The operation key `("__eq__", (1, 2))` produced by the `specialmethod`
key builder for a comparison of the proxy with the tuple `(1, 2)`
(any key built by `__call__` contains a nested tuple in the same way). -/
def exampleCallKey : PyVal :=
  .pytuple (.cons (.pystr "__eq__")
    (.cons (.pytuple (.cons (.pyint 1) (.cons (.pyint 2) .nil))) .nil))

/-- The same key as it comes back from a serialization round trip: the top
level was restored to a tuple but the nested tuple component stayed a
list. -/
def exampleReconKey : PyVal :=
  .pytuple (.cons (.pystr "__eq__")
    (.cons (.pylist (.cons (.pyint 1) (.cons (.pyint 2) .nil))) .nil))

/-- The key as `json.loads` delivers it, before `_from_json_obj` touches it:
a plain list at every level. -/
def exampleLoadedKey : PyVal :=
  .pylist (.cons (.pystr "__eq__")
    (.cons (.pylist (.cons (.pyint 1) (.cons (.pyint 2) .nil))) .nil))

/-- A recorded proxy holding one outcome: key `("__eq__", (1, 2))`, stored
value the string `"yes"`. -/
def exampleProxy : PyVal :=
  .proxy (.obj 7) (.cons exampleCallKey .nil) (.cons (.pystr "yes") .nil)

/-- The reconstruction of `exampleProxy` after a serialization round trip. -/
def exampleReconProxy : PyVal :=
  .proxy .ghost (.cons exampleReconKey .nil) (.cons (.pystr "yes") .nil)

/-- Well-formedness of a store, as maintained by the engine: the two lists
are index-aligned and no two keys are Python-equal. -/
def StoreWF (st : Store) : Prop :=
  st.keys.length = st.values.length ∧ (st.keys.map pyCanon).Nodup

/-!  Theorems.  First general lemmas about Python equality, list indexing and
the store helpers; then one theorem per claim of the specification. -/

theorem pyEq_refl (v : PyVal) : pyEq v v = true := by
  simp [pyEq]

theorem pyEq_iff_canon {a b : PyVal} : pyEq a b = true ↔ pyCanon a = pyCanon b := by
  simp [pyEq]

theorem pyEq_false_iff_canon {a b : PyVal} : pyEq a b = false ↔ pyCanon a ≠ pyCanon b := by
  simp [pyEq]

theorem listIndex_none_iff (x : PyVal) :
    ∀ (ks : List PyVal), listIndex x ks = Option.none ↔ ∀ k ∈ ks, pyEq k x = false := by
  intro ks
  induction ks with
  | nil => simp [listIndex]
  | cons k t ih =>
      cases h : pyEq k x with
      | true => simp [listIndex, h]
      | false => simp [listIndex, h, ih]

theorem listIndex_lt_length {x : PyVal} :
    ∀ {ks : List PyVal} {i : Nat}, listIndex x ks = some i → i < ks.length := by
  intro ks
  induction ks with
  | nil => intro i h; simp [listIndex] at h
  | cons k t ih =>
      intro i h
      cases hk : pyEq k x with
      | true => simp [listIndex, hk] at h; simp; omega
      | false =>
          simp [listIndex, hk] at h
          obtain ⟨j, hj, rfl⟩ := h
          have := ih hj
          simp; omega

theorem listIndex_get {x : PyVal} :
    ∀ {ks : List PyVal} {i : Nat}, listIndex x ks = some i →
      ∃ ki, ks[i]? = some ki ∧ pyEq ki x = true := by
  intro ks
  induction ks with
  | nil => intro i h; simp [listIndex] at h
  | cons k t ih =>
      intro i h
      cases hk : pyEq k x with
      | true =>
          simp [listIndex, hk] at h
          exact ⟨k, by simp [← h], hk⟩
      | false =>
          simp [listIndex, hk] at h
          obtain ⟨j, hj, rfl⟩ := h
          simpa using ih hj

theorem listIndex_set_self {x : PyVal} :
    ∀ {ks : List PyVal} {i : Nat}, listIndex x ks = some i →
      listIndex x (ks.set i x) = some i := by
  intro ks
  induction ks with
  | nil => intro i h; simp [listIndex] at h
  | cons k t ih =>
      intro i h
      cases hk : pyEq k x with
      | true =>
          simp [listIndex, hk] at h
          simp [← h, List.set, listIndex, pyEq_refl]
      | false =>
          simp [listIndex, hk] at h
          obtain ⟨j, hj, rfl⟩ := h
          simp [List.set, listIndex, hk, ih hj]

theorem listIndex_append_self (x : PyVal) :
    ∀ {ks : List PyVal}, listIndex x ks = Option.none →
      listIndex x (ks ++ [x]) = some ks.length := by
  intro ks
  induction ks with
  | nil => intro _; simp [listIndex, pyEq_refl]
  | cons k t ih =>
      intro h
      cases hk : pyEq k x with
      | true => simp [listIndex, hk] at h
      | false =>
          simp [listIndex, hk] at h
          simp [listIndex, hk, ih h]

theorem getElem?_set_self :
    ∀ (l : List PyVal) (i : Nat) (a : PyVal), i < l.length → (l.set i a)[i]? = some a := by
  intro l
  induction l with
  | nil => intro i a h; simp at h
  | cons x t ih =>
      intro i a h
      cases i with
      | zero => simp
      | succ j => simpa using ih j a (by simp at h; omega)

theorem getElem?_concat_self (l : List PyVal) (a : PyVal) : (l ++ [a])[l.length]? = some a := by
  induction l with
  | nil => simp
  | cons x t ih => simp [ih]

theorem set_of_getElem? {α : Type} :
    ∀ {l : List α} {i : Nat} {a : α}, l[i]? = some a → l.set i a = l := by
  intro l
  induction l with
  | nil => intro i a h; simp at h
  | cons x t ih =>
      intro i a h
      cases i with
      | zero => simp at h; simp [h]
      | succ j => simp at h; simp [ih h]

theorem lookup_store_self (st : Store) (k w : PyVal)
    (haligned : st.keys.length = st.values.length) :
    CachingProxy.lookup (CachingProxy.store st k w) k = some w := by
  unfold CachingProxy.store CachingProxy.lookup
  cases hidx : listIndex k st.keys with
  | none =>
      simp only [hidx]
      rw [listIndex_append_self k hidx, haligned]
      exact getElem?_concat_self st.values w
  | some i =>
      simp only [hidx]
      rw [listIndex_set_self hidx]
      exact getElem?_set_self st.values i w (haligned ▸ listIndex_lt_length hidx)

theorem pairwise_pyEq_iff_nodup (l : List PyVal) :
    l.Pairwise (fun a b => pyEq a b = false) ↔ (l.map pyCanon).Nodup := by
  rw [List.Nodup, List.pairwise_map]
  constructor
  · intro h
    exact h.imp (fun hab => pyEq_false_iff_canon.mp hab)
  · intro h
    exact h.imp (fun hab => pyEq_false_iff_canon.mpr hab)

theorem storeWF_empty : StoreWF emptyStore := by
  constructor <;> simp [emptyStore]

theorem storeWF_store {st : Store} (h : StoreWF st) (k v : PyVal) :
    StoreWF (CachingProxy.store st k v) := by
  obtain ⟨hlen, hnd⟩ := h
  unfold CachingProxy.store
  cases hidx : listIndex k st.keys with
  | none =>
      refine ⟨by simp [hlen], ?_⟩
      rw [List.map_append, List.nodup_append]
      refine ⟨hnd, by simp, ?_⟩
      intro a ha hb
      simp at hb
      subst hb
      obtain ⟨a0, ha0, hcan⟩ := List.mem_map.mp ha
      exact pyEq_false_iff_canon.mp ((listIndex_none_iff k st.keys).mp hidx a0 ha0) hcan
  | some i =>
      obtain ⟨ki, hget, hki⟩ := listIndex_get hidx
      refine ⟨by simp [hlen], ?_⟩
      have hmap : (st.keys.set i k).map pyCanon = (st.keys.map pyCanon).set i (pyCanon k) := by
        simp [List.map_set]
      have hset : (st.keys.map pyCanon).set i (pyCanon k) = st.keys.map pyCanon := by
        rw [← pyEq_iff_canon.mp hki]
        exact set_of_getElem? (by simp [hget])
      rw [hmap, hset]
      exact hnd

theorem storeWF_applyOp {st : Store} (h : StoreWF st) (op : StoreOp) :
    StoreWF (applyOp st op) := by
  cases op with
  | put k v => exact storeWF_store h k v
  | get _ => exact h

theorem storeWF_applyOps (ops : List StoreOp) :
    ∀ (st : Store), StoreWF st → StoreWF (applyOps st ops) := by
  induction ops with
  | nil => intro st h; exact h
  | cons op t ih =>
      intro st h
      exact ih (applyOp st op) (storeWF_applyOp h op)

mutual
theorem to_cache_isSome :
    ∀ (v : PyVal), (CachingProxy.to_cache v).isSome = CachingProxy.jsonable v
  | .none => rfl
  | .pybool _ => rfl
  | .pyint _ => rfl
  | .pystr _ => rfl
  | .pylist xs => by
      rw [CachingProxy.to_cache, CachingProxy.jsonable, ← to_cacheArgs_isSome xs]
      cases CachingProxy.to_cacheArgs xs <;> rfl
  | .pytuple xs => by
      rw [CachingProxy.to_cache, CachingProxy.jsonable, ← to_cacheArgs_isSome xs]
      cases CachingProxy.to_cacheArgs xs <;> rfl
  | .pydict fs => by
      rw [CachingProxy.to_cache, CachingProxy.jsonable, ← to_cacheFields_isSome fs]
      cases CachingProxy.to_cacheFields fs <;> rfl
  | .proxy s ks vs => by
      rw [CachingProxy.to_cache, CachingProxy.jsonable, ← to_cacheArgs_isSome ks,
        ← to_cacheArgs_isSome vs]
      cases CachingProxy.to_cacheArgs ks <;> cases CachingProxy.to_cacheArgs vs <;> rfl
  | .exc _ _ => rfl
  | .obj _ => rfl
  | .ghost => rfl
  | .cachedExc _ => rfl
theorem to_cacheArgs_isSome :
    ∀ (xs : PyArgs), (CachingProxy.to_cacheArgs xs).isSome = CachingProxy.jsonableArgs xs
  | .nil => rfl
  | .cons h t => by
      rw [CachingProxy.to_cacheArgs, CachingProxy.jsonableArgs, ← to_cache_isSome h,
        ← to_cacheArgs_isSome t]
      cases CachingProxy.to_cache h <;> cases CachingProxy.to_cacheArgs t <;> rfl
theorem to_cacheFields_isSome :
    ∀ (fs : PyFields), (CachingProxy.to_cacheFields fs).isSome = CachingProxy.jsonableFields fs
  | .fnil => rfl
  | .fcons _ v t => by
      rw [CachingProxy.to_cacheFields, CachingProxy.jsonableFields, ← to_cache_isSome v,
        ← to_cacheFields_isSome t]
      cases CachingProxy.to_cache v <;> cases CachingProxy.to_cacheFields t <;> rfl
end

theorem jsonableArgs_false_of_mem {v : PyVal} :
    ∀ (xs : PyArgs), v ∈ xs.toList → CachingProxy.jsonable v = false →
      CachingProxy.jsonableArgs xs = false
  | .nil, hv, _ => by simp [PyArgs.toList] at hv
  | .cons h t, hv, hbad => by
      rw [PyArgs.toList, List.mem_cons] at hv
      rcases hv with rfl | hv
      · simp [CachingProxy.jsonableArgs, hbad]
      · simp [CachingProxy.jsonableArgs, jsonableArgs_false_of_mem t hv hbad]

/-- C1: the claim states that an exception raised by the invoker in a
recording mode is wrapped into a captured-outcome marker, stored, and
re-raised (wrapped as a proxy over the exception) at record time and on
every later resolution of the key.  The code does otherwise: `call_impl`
returns the bare exception object (it never constructs `CachedException`),
so the store receives the unwrapped exception and `return_wrapped` hands it
back as an ordinary return value, both at record time (first and second
conjunct: record-only resolution with a raising invoker returns the
exception and stores it bare) and on a later replay of the same key (third
conjunct: a record-and-reuse hit on the stored exception also returns it as
a value). -/
theorem exception_capture_returns_not_raises :
    (CachingProxy.cache_resolve CacheMode.CACHE_KEEP (PyVal.obj 0) emptyStore
        (PyVal.pystr "key")
        (fun (s : Unit) => (Except.error (PyVal.exc "RuntimeError" PyVal.none), s)) ()).result
      = RResult.ret (PyVal.exc "RuntimeError" PyVal.none)
    ∧ (CachingProxy.cache_resolve CacheMode.CACHE_KEEP (PyVal.obj 0) emptyStore
        (PyVal.pystr "key")
        (fun (s : Unit) => (Except.error (PyVal.exc "RuntimeError" PyVal.none), s)) ()).store.values
      = [PyVal.exc "RuntimeError" PyVal.none]
    ∧ (CachingProxy.cache_resolve CacheMode.CACHE_USE PyVal.ghost
        ⟨[PyVal.pystr "key"], [PyVal.exc "RuntimeError" PyVal.none]⟩
        (PyVal.pystr "key") deadInvoker ()).result
      = RResult.ret (PyVal.exc "RuntimeError" PyVal.none) :=
  ⟨rfl, rfl, rfl⟩

/-- C2: the round-trip claim fails on the code.  For the proxy holding the
single outcome key `("__eq__", (1, 2))` with value `"yes"`, capture-time
resolution of that key returns `"yes"` (first conjunct), the serialization
round trip succeeds and yields a ghost-subject proxy whose stored key has
its nested tuple turned into a list (second conjunct), and replay-only
resolution of the original key against the reconstructed proxy raises
`NotCachedError` instead of returning `"yes"` (third conjunct), because a
Python tuple never compares equal to a list. -/
theorem roundtrip_loses_call_keys :
    (proxyResolve CacheMode.CACHE_PURE exampleProxy exampleCallKey deadInvoker ()).result
      = RResult.ret (PyVal.pystr "yes")
    ∧ (CachingProxy.to_cache exampleProxy).bind CachingProxy.from_cache
      = some exampleReconProxy
    ∧ (proxyResolve CacheMode.CACHE_PURE exampleReconProxy exampleCallKey deadInvoker ()).result
      = RResult.notCached PyVal.ghost exampleCallKey :=
  ⟨rfl, rfl, rfl⟩

/-- C3: the claim states that deserialization normalizes every plain ordered
sequence inside a stored key, at any nesting depth, so that lookups with a
key equal to the original succeed exactly as before serialization.  The key
transformation of `_from_json_obj` converts only the top level: for the
loaded key `["__eq__", [1, 2]]` it produces the tuple
`("__eq__", [1, 2])` whose nested component is still a list (first and
second conjunct), which is not Python-equal to the original key
`("__eq__", (1, 2))` (third conjunct); the lookup that succeeded on the
original store therefore fails on the reconstructed one (fourth and fifth
conjunct). -/
theorem normalization_top_level_only :
    CachingProxy.mapNormKeys (PyArgs.cons exampleLoadedKey PyArgs.nil)
      = PyArgs.cons exampleReconKey PyArgs.nil
    ∧ exampleReconKey
      = PyVal.pytuple (PyArgs.cons (PyVal.pystr "__eq__")
          (PyArgs.cons (PyVal.pylist
            (PyArgs.cons (PyVal.pyint 1) (PyArgs.cons (PyVal.pyint 2) PyArgs.nil)))
            PyArgs.nil))
    ∧ pyEq exampleReconKey exampleCallKey = false
    ∧ CachingProxy.lookup ⟨[exampleCallKey], [PyVal.pystr "yes"]⟩ exampleCallKey
      = some (PyVal.pystr "yes")
    ∧ CachingProxy.lookup ⟨[exampleReconKey], [PyVal.pystr "yes"]⟩ exampleCallKey
      = Option.none :=
  ⟨rfl, rfl, rfl, rfl, rfl⟩

/-- C4: in replay-only mode the engine computes the key and consults only the
store: on a miss it fails with `NotCachedError` carrying the subject and the
computed key, on a hit it unwraps the stored outcome via `return_wrapped`;
in both cases the invoker never runs (zero invocations, subject state
unchanged) and the store is untouched. -/
theorem replay_only_behavior {σ : Type} (subject : PyVal) (st : Store) (cache_key : PyVal)
    (invoker : σ → Except PyVal PyVal × σ) (s : σ) :
    CachingProxy.cache_resolve CacheMode.CACHE_PURE subject st cache_key invoker s =
      { result :=
          match CachingProxy.lookup st cache_key with
          | some w => CachingProxy.return_wrapped w
          | Option.none => RResult.notCached subject cache_key,
        store := st, state := s, invocations := 0,
        keyComputed := true, storeAccessed := true } := by
  unfold CachingProxy.cache_resolve
  cases CachingProxy.lookup st cache_key <;> rfl

/-- C5: in record-and-reuse mode, resolving the same key twice in a row
(threading the store and the subject state from the first call into the
second) delivers the same result both times and runs the invoker at most
once across the two calls.  The hypothesis is the store alignment invariant
that every store built by the engine satisfies. -/
theorem record_and_reuse_idempotent {σ : Type} (subject : PyVal) (st : Store)
    (cache_key : PyVal) (invoker : σ → Except PyVal PyVal × σ) (s : σ)
    (haligned : st.keys.length = st.values.length) :
    (CachingProxy.cache_resolve CacheMode.CACHE_USE subject
        (CachingProxy.cache_resolve CacheMode.CACHE_USE subject st cache_key invoker s).store
        cache_key invoker
        (CachingProxy.cache_resolve CacheMode.CACHE_USE subject st cache_key invoker s).state).result
      = (CachingProxy.cache_resolve CacheMode.CACHE_USE subject st cache_key invoker s).result
    ∧ (CachingProxy.cache_resolve CacheMode.CACHE_USE subject st cache_key invoker s).invocations
      + (CachingProxy.cache_resolve CacheMode.CACHE_USE subject
          (CachingProxy.cache_resolve CacheMode.CACHE_USE subject st cache_key invoker s).store
          cache_key invoker
          (CachingProxy.cache_resolve CacheMode.CACHE_USE subject st cache_key invoker s).state).invocations
      ≤ 1 := by
  cases hl : CachingProxy.lookup st cache_key with
  | some w =>
      constructor <;> simp [CachingProxy.cache_resolve, hl]
  | none =>
      have h2 := lookup_store_self st cache_key
        (CachingProxy.call_impl (invoker s).1) haligned
      constructor <;> simp [CachingProxy.cache_resolve, hl, h2]

/-- C5 witness: the theorem applied to an empty (trivially aligned) store, a
concrete key and a counting subject. -/
theorem record_and_reuse_idempotent_witness :
    (emptyStore.keys.length = emptyStore.values.length)
    ∧ ((CachingProxy.cache_resolve CacheMode.CACHE_USE (PyVal.obj 3)
          (CachingProxy.cache_resolve CacheMode.CACHE_USE (PyVal.obj 3) emptyStore
            (PyVal.pystr "m")
            (fun (n : Nat) => (Except.ok (PyVal.pyint (Int.ofNat n)), n + 1)) 0).store
          (PyVal.pystr "m")
          (fun (n : Nat) => (Except.ok (PyVal.pyint (Int.ofNat n)), n + 1))
          (CachingProxy.cache_resolve CacheMode.CACHE_USE (PyVal.obj 3) emptyStore
            (PyVal.pystr "m")
            (fun (n : Nat) => (Except.ok (PyVal.pyint (Int.ofNat n)), n + 1)) 0).state).result
        = (CachingProxy.cache_resolve CacheMode.CACHE_USE (PyVal.obj 3) emptyStore
            (PyVal.pystr "m")
            (fun (n : Nat) => (Except.ok (PyVal.pyint (Int.ofNat n)), n + 1)) 0).result
      ∧ (CachingProxy.cache_resolve CacheMode.CACHE_USE (PyVal.obj 3) emptyStore
          (PyVal.pystr "m")
          (fun (n : Nat) => (Except.ok (PyVal.pyint (Int.ofNat n)), n + 1)) 0).invocations
        + (CachingProxy.cache_resolve CacheMode.CACHE_USE (PyVal.obj 3)
            (CachingProxy.cache_resolve CacheMode.CACHE_USE (PyVal.obj 3) emptyStore
              (PyVal.pystr "m")
              (fun (n : Nat) => (Except.ok (PyVal.pyint (Int.ofNat n)), n + 1)) 0).store
            (PyVal.pystr "m")
            (fun (n : Nat) => (Except.ok (PyVal.pyint (Int.ofNat n)), n + 1))
            (CachingProxy.cache_resolve CacheMode.CACHE_USE (PyVal.obj 3) emptyStore
              (PyVal.pystr "m")
              (fun (n : Nat) => (Except.ok (PyVal.pyint (Int.ofNat n)), n + 1)) 0).state).invocations
        ≤ 1) :=
  ⟨rfl, record_and_reuse_idempotent (PyVal.obj 3) emptyStore (PyVal.pystr "m")
    (fun (n : Nat) => (Except.ok (PyVal.pyint (Int.ofNat n)), n + 1)) 0 rfl⟩

/-- C6: in disabled mode the engine hands the invoker outcome straight
through: the returned value (or propagated exception) is exactly the direct
outcome of the operation on the subject, with no `CachingProxy` wrapping
(`rawResult` rather than `call_impl`), the key thunk is never forced, the
store is neither read nor written and comes back unchanged. -/
theorem disabled_passthrough {σ : Type} (subject : PyVal) (st : Store) (cache_key : PyVal)
    (invoker : σ → Except PyVal PyVal × σ) (s : σ) :
    CachingProxy.cache_resolve CacheMode.CACHE_NONE subject st cache_key invoker s =
      { result := rawResult (invoker s).1, store := st, state := (invoker s).2,
        invocations := 1, keyComputed := false, storeAccessed := false } :=
  rfl

/-- C7: invariants of the per-proxy store under any sequence of put and get
operations issued by the engine starting from the empty store of a fresh
proxy: the key and value lists stay index-aligned (equal length), keys stay
pairwise Python-unequal, a put never shrinks the store, a put of an existing
key overwrites both lists at that index without appending while a put of a
new key appends to both, the store of a freshly constructed proxy is empty,
and no single operation ever shrinks any store. -/
theorem store_invariants (ops : List StoreOp) (k v : PyVal) :
    (applyOps emptyStore ops).keys.length = (applyOps emptyStore ops).values.length
    ∧ (applyOps emptyStore ops).keys.Pairwise (fun a b => pyEq a b = false)
    ∧ (applyOps emptyStore ops).keys.length
        ≤ (CachingProxy.store (applyOps emptyStore ops) k v).keys.length
    ∧ (match listIndex k (applyOps emptyStore ops).keys with
       | some i =>
           (CachingProxy.store (applyOps emptyStore ops) k v).keys
             = (applyOps emptyStore ops).keys.set i k
           ∧ (CachingProxy.store (applyOps emptyStore ops) k v).values
             = (applyOps emptyStore ops).values.set i v
           ∧ (CachingProxy.store (applyOps emptyStore ops) k v).keys.length
             = (applyOps emptyStore ops).keys.length
       | Option.none =>
           (CachingProxy.store (applyOps emptyStore ops) k v).keys
             = (applyOps emptyStore ops).keys ++ [k]
           ∧ (CachingProxy.store (applyOps emptyStore ops) k v).values
             = (applyOps emptyStore ops).values ++ [v])
    ∧ (∀ (w : PyVal), storeOf (CachingProxy.new w) = emptyStore)
    ∧ (∀ (st2 : Store) (op : StoreOp), st2.keys.length ≤ (applyOp st2 op).keys.length) := by
  obtain ⟨hlen, hnd⟩ := storeWF_applyOps ops emptyStore storeWF_empty
  refine ⟨hlen, (pairwise_pyEq_iff_nodup _).mpr hnd, ?_, ?_, ?_, ?_⟩
  · unfold CachingProxy.store
    cases hidx : listIndex k (applyOps emptyStore ops).keys <;> simp
  · unfold CachingProxy.store
    cases hidx : listIndex k (applyOps emptyStore ops).keys <;> simp [hidx]
  · intro w
    cases w <;> simp [CachingProxy.new, isPrimitive, storeOf, emptyStore, PyArgs.toList]
  · intro st2 op
    cases op with
    | get _ => exact Nat.le_refl _
    | put k2 v2 =>
        unfold applyOp CachingProxy.store
        cases hidx : listIndex k2 st2.keys <;> simp [hidx]

/-- C8: item write and item delete go through `specialmethod_nocache`, which
forwards the operation straight to the subject: the caller receives exactly
the direct outcome, the store comes back unchanged, and the behavior is
identical under every cache mode (the helper never consults the mode, never
computes a key and never stores an outcome). -/
theorem setitem_delitem_no_cache {σ : Type} (mode mode2 : CacheMode) (st : Store)
    (invoker : σ → Except PyVal PyVal × σ) (s : σ) :
    CachingProxy.specialmethod_nocache mode st invoker s
      = (rawResult (invoker s).1, st, (invoker s).2)
    ∧ CachingProxy.specialmethod_nocache mode st invoker s
      = CachingProxy.specialmethod_nocache mode2 st invoker s :=
  ⟨rfl, rfl⟩

/-- C9: the claim states that `set_repr_mode(m)` makes the process-wide
presentation mode equal to `m`.  The body of the setter is
`cls.repr_mode = True`: it ignores its argument, so calling it with
`REPR_REAL` (the integer 0) leaves the class attribute holding Python
`True`, which compares equal to `REPR_FAKE` (the integer 1) and unequal to
the requested `REPR_REAL`.  Only the default (before any call) is
`REPR_REAL`, as the claim says. -/
theorem set_repr_mode_ignores_argument :
    CachingProxy.set_repr_mode CachingProxy.REPR_REAL = PyVal.pybool true
    ∧ pyEq (CachingProxy.set_repr_mode CachingProxy.REPR_REAL) CachingProxy.REPR_REAL = false
    ∧ pyEq (CachingProxy.set_repr_mode CachingProxy.REPR_REAL) CachingProxy.REPR_FAKE = true
    ∧ pyEq CachingProxy.repr_mode_default CachingProxy.REPR_REAL = true :=
  ⟨rfl, rfl, rfl, rfl⟩

/-- C10 counterexample: the claim as stated says `to_cache` raises whenever
some stored value is anything other than a JSON-serializable primitive or a
nested proxy.  The empty list stored as a value is neither a primitive nor
a proxy, yet serialization succeeds on it (plain JSON data structures dump
fine), so the claim as stated is false. -/
theorem to_cache_accepts_plain_list_value :
    isPrimitive (PyVal.pylist PyArgs.nil) = false
    ∧ isProxyVal (PyVal.pylist PyArgs.nil) = false
    ∧ (CachingProxy.to_cache (PyVal.proxy PyVal.ghost
        (PyArgs.cons (PyVal.pystr "k") PyArgs.nil)
        (PyArgs.cons (PyVal.pylist PyArgs.nil) PyArgs.nil))).isSome = true :=
  ⟨rfl, rfl, rfl⟩

/-- C10 (amended): serialization succeeds only when every value stored in
the proxy tree is JSON-serializable plain data or a nested proxy whose own
tree is such: whenever some stored value is not (`jsonable` is false on it;
in particular for every exception object stored as a captured outcome, and
recursively for a nested proxy one of whose stored values is such),
`to_cache` fails instead of producing a document. -/
theorem to_cache_fails_on_bad_value (subject : PyVal) (ks vs : PyArgs) (v : PyVal)
    (hv : v ∈ vs.toList) (hbad : CachingProxy.jsonable v = false) :
    CachingProxy.to_cache (PyVal.proxy subject ks vs) = Option.none := by
  have hargs := jsonableArgs_false_of_mem vs hv hbad
  have hsome := to_cacheArgs_isSome vs
  rw [hargs] at hsome
  unfold CachingProxy.to_cache
  cases hks : CachingProxy.to_cacheArgs ks <;>
    cases hvs : CachingProxy.to_cacheArgs vs <;> simp_all

/-- C10 witness: a store holding a captured exception object as its value
cannot be serialized. -/
theorem to_cache_fails_on_bad_value_witness :
    ((PyVal.exc "KeyError" (PyVal.pyint 1))
        ∈ (PyArgs.cons (PyVal.exc "KeyError" (PyVal.pyint 1)) PyArgs.nil).toList)
    ∧ CachingProxy.jsonable (PyVal.exc "KeyError" (PyVal.pyint 1)) = false
    ∧ CachingProxy.to_cache (PyVal.proxy (PyVal.obj 0)
        (PyArgs.cons (PyVal.pystr "k") PyArgs.nil)
        (PyArgs.cons (PyVal.exc "KeyError" (PyVal.pyint 1)) PyArgs.nil)) = Option.none :=
  ⟨by simp [PyArgs.toList], rfl,
    to_cache_fails_on_bad_value (PyVal.obj 0)
      (PyArgs.cons (PyVal.pystr "k") PyArgs.nil)
      (PyArgs.cons (PyVal.exc "KeyError" (PyVal.pyint 1)) PyArgs.nil)
      (PyVal.exc "KeyError" (PyVal.pyint 1)) (by simp [PyArgs.toList]) rfl⟩
